import Mathlib

/-!
Verification development for the qbittorrent Go client library.

The definitions below are shallow embeddings of the functions in
`client.go` (both the plain version and the context-enabled version of
the client, which share the data model).  Go strings are modelled as
Lean `String` (or `List Char` where inductive proofs require it),
machine integers as `Int`/`Nat`, fallible code as `Except`/`Option`,
and the HTTP network as an explicit environment mapping requests to
responses.  The mutual recursion between `doRequestCtx` and
`AuthLoginCtx` (re-authentication on a 403 response) is embedded with
an explicit fuel parameter; a `none` result means the computation did
not finish within the given fuel (the Go original can in fact recurse
without bound when the login endpoint itself answers 403).
-/

set_option maxRecDepth 4096

namespace QbtClient

/-- Errors produced by the client, mirroring the `fmt.Errorf` values in
`client.go`.  Each constructor keeps the data that the corresponding Go
error string interpolates (operation name, status code, body). -/
inductive GoError where
  | transport (msg : String)
  | ctxCanceled
  | reAuthFailed (e : GoError)
  | wrap (op : String) (e : GoError)
  | authError (status : Nat) (body : String)
  | httpStatus (status : Nat) (body : String)
  | postError (status : Nat) (body : String)
  | emptyResponse (op : String)
  | decodeFailed (op : String) (msg : String)
  deriving Repr, DecidableEq

/-- An HTTP response as observed by the client: status code, body bytes
and the response cookies (name/value pairs). -/
structure HttpResponse where
  status : Nat
  body : String
  cookies : List (String × String)
  deriving Repr, DecidableEq

/-- An outgoing HTTP request as built by `makeRequest` inside
`doRequestCtx`: method, endpoint path, content type, query parameters
and the (already buffered) body.  `body = none` models a nil
`io.Reader`. -/
structure GoRequest where
  method : String
  endpoint : String
  contentType : String
  query : List (String × String)
  body : Option String
  deriving Repr, DecidableEq

/-- The trace of requests that actually reached the network, in order. -/
abbrev Trace := List GoRequest

/-- The network environment: given the history of requests already
served and the incoming request, produce the response.  This models an
arbitrary remote server (including its mock in the test suite). -/
structure NetEnv where
  respond : Trace → GoRequest → HttpResponse

/-- The login request issued by `AuthLoginCtx`: a POST of the
form-encoded credentials to `/api/v2/auth/login`.  `creds` stands for
the encoded `username`/`password` form body. -/
def loginReq (creds : String) : GoRequest :=
  { method := "POST"
    endpoint := "/api/v2/auth/login"
    contentType := "application/x-www-form-urlencoded"
    query := []
    body := some creds }

/-- One call of `c.client.Do(req)`: with a cancelled context the HTTP
layer fails without the request reaching the network (modelling
`http.Client.Do` on a request built by `http.NewRequestWithContext`
with a cancelled/expired context); otherwise the environment answers
and the request is appended to the trace. -/
def clientDo (env : NetEnv) (cancelled : Bool) (tr : Trace) (req : GoRequest) :
    Except GoError HttpResponse × Trace :=
  if cancelled then (Except.error GoError.ctxCanceled, tr)
  else (Except.ok (env.respond tr req), tr ++ [req])

/-- Embedding of `doRequestCtx` (client context version, with
`AuthLoginCtx` inlined at its single call site in the 403 branch).
Control flow transliterated from the source:

* issue the request once (`makeRequest` + `client.Do`);
* if the response status is 403, close it and call `AuthLoginCtx`,
  which itself POSTs the credentials through `doRequestCtx` and then
  demands status 200; a failure is wrapped as a re-authentication
  error; on success the identical original request is reissued and its
  response returned as-is;
* any other status is returned as-is.

`fuel` bounds the recursion depth (`AuthLoginCtx` reenters
`doRequestCtx`); a `none` result means the fuel ran out, i.e. the Go
original would still be recursing. -/
def doRequestRec (env : NetEnv) (creds : String) :
    Nat → Bool → GoRequest → Trace → Option (Except GoError HttpResponse) × Trace
  | 0, _, _, tr => (none, tr)
  | fuel + 1, cancelled, req, tr =>
    match clientDo env cancelled tr req with
    | (Except.error e, tr1) => (some (Except.error e), tr1)
    | (Except.ok resp, tr1) =>
      if resp.status = 403 then
        match doRequestRec env creds fuel cancelled (loginReq creds) tr1 with
        | (none, tr2) => (none, tr2)
        | (some (Except.error e), tr2) =>
          (some (Except.error (GoError.reAuthFailed (GoError.wrap "AuthLogin" e))), tr2)
        | (some (Except.ok lresp), tr2) =>
          if lresp.status ≠ 200 then
            (some (Except.error (GoError.reAuthFailed
              (GoError.authError lresp.status lresp.body))), tr2)
          else
            match clientDo env cancelled tr2 req with
            | (Except.error e, tr3) => (some (Except.error e), tr3)
            | (Except.ok resp2, tr3) => (some (Except.ok resp2), tr3)
      else (some (Except.ok resp), tr1)

/-- A request body source (`io.Reader`): a stream of bytes that can be
drained.  `doRequestCtx` drains it once into `bodyBuffer` before the
first attempt. -/
structure Stream where
  data : String
  deriving Repr, DecidableEq

/-- Embedding of the top of `doRequestCtx`: buffer the body source once
(`io.ReadAll`), then run the request/retry state machine.  Returns the
outcome, the network trace, and how many times the body source was
drained. -/
def doRequestCtx (env : NetEnv) (creds : String) (fuel : Nat) (cancelled : Bool)
    (method endpoint contentType : String) (query : List (String × String))
    (bodySrc : Option Stream) :
    (Option (Except GoError HttpResponse) × Trace) × Nat :=
  let buffered : Option String × Nat :=
    match bodySrc with
    | none => (none, 0)
    | some s => (some s.data, 1)
  let req : GoRequest :=
    { method := method, endpoint := endpoint, contentType := contentType
      query := query, body := buffered.1 }
  (doRequestRec env creds fuel cancelled req [], buffered.2)

/-- Embedding of `AuthLoginCtx` (context client version): POST the
credentials through the request pipeline, wrap transport errors, demand
status 200, and otherwise fail with an error carrying the status code
and the response body. -/
def authLoginCtxM (env : NetEnv) (creds : String) (fuel : Nat) (cancelled : Bool) :
    Option (Except GoError Unit) × Trace :=
  match doRequestRec env creds fuel cancelled (loginReq creds) [] with
  | (none, tr) => (none, tr)
  | (some (Except.error e), tr) => (some (Except.error (GoError.wrap "AuthLogin" e)), tr)
  | (some (Except.ok resp), tr) =>
    if resp.status ≠ 200 then
      (some (Except.error (GoError.authError resp.status resp.body)), tr)
    else (some (Except.ok ()), tr)

/-- Embedding of the deprecated `AuthLogin` wrapper: delegates to
`AuthLoginCtx` with `context.Background()` (never cancelled). -/
def authLoginM (env : NetEnv) (creds : String) (fuel : Nat) :
    Option (Except GoError Unit) × Trace :=
  authLoginCtxM env creds fuel false

/-- Embedding of `doPostCtx`: run the POST through the pipeline, read
the body, and demand status 200. -/
def doPostCtxM (env : NetEnv) (creds : String) (fuel : Nat) (cancelled : Bool)
    (endpoint : String) (body : Option Stream) (contentType : String) :
    Option (Except GoError String) × Trace :=
  match doRequestCtx env creds fuel cancelled "POST" endpoint contentType [] body with
  | ((none, tr), _) => (none, tr)
  | ((some (Except.error e), tr), _) => (some (Except.error e), tr)
  | ((some (Except.ok resp), tr), _) =>
    if resp.status ≠ 200 then
      (some (Except.error (GoError.postError resp.status resp.body)), tr)
    else (some (Except.ok resp.body), tr)

/-- Embedding of `doGetCtx`: run the GET through the pipeline with
query parameters and no body, demand status 200, return the body. -/
def doGetCtxM (env : NetEnv) (creds : String) (fuel : Nat) (cancelled : Bool)
    (endpoint : String) (query : List (String × String)) :
    Option (Except GoError String) × Trace :=
  match doRequestCtx env creds fuel cancelled "GET" endpoint "" query none with
  | ((none, tr), _) => (none, tr)
  | ((some (Except.error e), tr), _) => (some (Except.error e), tr)
  | ((some (Except.ok resp), tr), _) =>
    if resp.status ≠ 200 then
      (some (Except.error (GoError.httpStatus resp.status resp.body)), tr)
    else (some (Except.ok resp.body), tr)

/-- Upper-case hexadecimal digit, as used by Go's percent-encoding. -/
def hexDigit (n : Nat) : Char :=
  if n < 10 then Char.ofNat (48 + n) else Char.ofNat (55 + n)

/-- Go's `url.QueryEscape` on a single character (ASCII scope, which
covers every string this client encodes): unreserved characters are
kept, space becomes `+`, everything else becomes `%XX`. -/
def queryEscapeChar (c : Char) : List Char :=
  if (97 ≤ c.toNat ∧ c.toNat ≤ 122) ∨ (65 ≤ c.toNat ∧ c.toNat ≤ 90) ∨
     (48 ≤ c.toNat ∧ c.toNat ≤ 57) ∨ c = '-' ∨ c = '_' ∨ c = '.' ∨ c = '~' then
    [c]
  else if c = ' ' then ['+']
  else ['%', hexDigit (c.toNat / 16 % 16), hexDigit (c.toNat % 16)]

/-- Go's `url.QueryEscape` (ASCII scope). -/
def goQueryEscape (s : String) : String :=
  ⟨s.data.flatMap queryEscapeChar⟩

/-- Lexicographic at-most comparison of character lists by code point
(the byte order `sort.Strings` uses, on the ASCII strings at hand). -/
def charListLe : List Char → List Char → Bool
  | [], _ => true
  | _ :: _, [] => false
  | a :: as, b :: bs =>
    if a.toNat < b.toNat then true
    else if b.toNat < a.toNat then false
    else charListLe as bs

/-- String comparison used for the key sort in `url.Values.Encode`. -/
def strLe (a b : String) : Bool := charListLe a.data b.data

/-- Insert one key/value pair into a key-sorted association list,
keeping the list sorted by key (models `sort.Strings` over the keys in
`url.Values.Encode`). -/
def insertByKey (kv : String × String) :
    List (String × String) → List (String × String)
  | [] => [kv]
  | p :: rest =>
    if strLe kv.1 p.1 then kv :: p :: rest else p :: insertByKey kv rest

/-- Sort an association list by key (insertion sort; `url.Values.Encode`
iterates the keys in sorted order). -/
def sortByKey : List (String × String) → List (String × String)
  | [] => []
  | p :: rest => insertByKey p (sortByKey rest)

/-- Join already-encoded `key=value` pieces with `&`. -/
def joinAmp : List String → String
  | [] => ""
  | [x] => x
  | x :: xs => x ++ "&" ++ joinAmp xs

/-- Go's `url.Values.Encode`: keys in sorted order, keys and values
percent-escaped, pieces joined with `&`.  Our association lists hold a
single value per key, matching the `Set` calls in the client. -/
def goValuesEncode (vs : List (String × String)) : String :=
  joinAmp ((sortByKey vs).map fun kv => goQueryEscape kv.1 ++ "=" ++ goQueryEscape kv.2)

/-- Embedding of `doPostValuesCtx`: form-encode the values and POST
them with the form content type. -/
def doPostValuesCtxM (env : NetEnv) (creds : String) (fuel : Nat) (cancelled : Bool)
    (endpoint : String) (data : List (String × String)) :
    Option (Except GoError String) × Trace :=
  doPostCtxM env creds fuel cancelled endpoint (some ⟨goValuesEncode data⟩)
    "application/x-www-form-urlencoded"

/-- The `url.Values` built by `TorrentsDeleteCtx`: the hash plus an
unconditional `deleteFiles=true`. -/
def torrentsDeleteValues (infohash : String) : List (String × String) :=
  [("hashes", infohash), ("deleteFiles", "true")]

/-- Embedding of `TorrentsDeleteCtx`: POST the delete form; wrap any
error with the operation name. -/
def torrentsDeleteCtxM (env : NetEnv) (creds : String) (fuel : Nat) (cancelled : Bool)
    (infohash : String) : Option (Except GoError Unit) × Trace :=
  match doPostValuesCtxM env creds fuel cancelled "/api/v2/torrents/delete"
      (torrentsDeleteValues infohash) with
  | (none, tr) => (none, tr)
  | (some (Except.error e), tr) =>
    (some (Except.error (GoError.wrap "TorrentsDelete" e)), tr)
  | (some (Except.ok _), tr) => (some (Except.ok ()), tr)

/-- Embedding of the deprecated `TorrentsDelete` wrapper: delegates to
the context form with `context.Background()`. -/
def torrentsDeleteM (env : NetEnv) (creds : String) (fuel : Nat) (infohash : String) :
    Option (Except GoError Unit) × Trace :=
  torrentsDeleteCtxM env creds fuel false infohash

/-- Embedding of `TorrentsExportCtx`: POST the hash form to the export
endpoint and return the raw body bytes. -/
def torrentsExportCtxM (env : NetEnv) (creds : String) (fuel : Nat) (cancelled : Bool)
    (hash : String) : Option (Except GoError String) × Trace :=
  doPostValuesCtxM env creds fuel cancelled "/api/v2/torrents/export" [("hash", hash)]

/-- Embedding of the deprecated `TorrentsExport` wrapper: delegates to
the context form with `context.Background()`. -/
def torrentsExportM (env : NetEnv) (creds : String) (fuel : Nat) (hash : String) :
    Option (Except GoError String) × Trace :=
  torrentsExportCtxM env creds fuel false hash

/-- Embedding of `TorrentsPropertiesCtx`.  The JSON decoding of a
non-empty body is kept abstract (`decode` stands for
`json.Unmarshal` into `TorrentsProperties`); the method itself rejects
an empty body before ever invoking the decoder. -/
def torrentsPropertiesCtxM {α : Type} (decode : String → Except String α)
    (env : NetEnv) (creds : String) (fuel : Nat) (cancelled : Bool) (hash : String) :
    Option (Except GoError α) × Trace :=
  match doGetCtxM env creds fuel cancelled "/api/v2/torrents/properties" [("hash", hash)] with
  | (none, tr) => (none, tr)
  | (some (Except.error e), tr) =>
    (some (Except.error (GoError.wrap "TorrentsProperties" e)), tr)
  | (some (Except.ok respData), tr) =>
    if respData.length = 0 then
      (some (Except.error (GoError.emptyResponse "TorrentsProperties")), tr)
    else
      match decode respData with
      | Except.error msg => (some (Except.error (GoError.decodeFailed "properties" msg)), tr)
      | Except.ok props => (some (Except.ok props), tr)

/-- Embedding of `TorrentsInfoCtx` restricted to its response handling
(no optional query parameters): GET the list and decode it with
`json.Unmarshal` (kept abstract as `decode`). -/
def torrentsInfoCtxM {α : Type} (decode : String → Except String α)
    (env : NetEnv) (creds : String) (fuel : Nat) (cancelled : Bool) :
    Option (Except GoError α) × Trace :=
  match doGetCtxM env creds fuel cancelled "/api/v2/torrents/info" [] with
  | (none, tr) => (none, tr)
  | (some (Except.error e), tr) => (some (Except.error e), tr)
  | (some (Except.ok respData), tr) =>
    match decode respData with
    | Except.error msg => (some (Except.error (GoError.decodeFailed "response" msg)), tr)
    | Except.ok torrents => (some (Except.ok torrents), tr)

/-- The first response cookie named `SID`, as scanned by the loop in
`AuthLogin` (plain client version). -/
def findSID : List (String × String) → Option String
  | [] => none
  | (n, v) :: rest => if n = "SID" then some v else findSID rest

/-- Embedding of `AuthLogin` (plain client version, `client.go:333`),
as a function of the transport outcome of the login POST and of the
current session state `sid`: a transport failure is wrapped; a non-200
status fails with an error carrying the status code and response body;
on status 200 the first `SID` response cookie (if any) is persisted
into the session state.  Returns the call outcome and the new `sid`. -/
def authLoginUpdate (result : Except GoError HttpResponse) (sid : String) :
    Except GoError Unit × String :=
  match result with
  | Except.error e => (Except.error (GoError.wrap "AuthLogin" e), sid)
  | Except.ok resp =>
    if resp.status ≠ 200 then
      (Except.error (GoError.authError resp.status resp.body), sid)
    else
      match findSID resp.cookies with
      | none => (Except.ok (), sid)
      | some v => (Except.ok (), v)

/-- Go's `strings.Split` with the single-character separator `,`,
over strings modelled as `List Char`.  Like the Go original it returns
one (possibly empty) piece per comma-delimited segment; on the empty
string it returns one empty piece. -/
def splitComma : List Char → List (List Char)
  | [] => [[]]
  | c :: rest =>
    match splitComma rest with
    | [] => [[]]
    | t :: ts => if c = ',' then [] :: t :: ts else (c :: t) :: ts

/-- `strings.Join`-style inverse of `splitComma`: interleave `,`
between the pieces (the wire format of the `tags` JSON field). -/
def joinComma : List (List Char) → List Char
  | [] => []
  | [x] => x
  | x :: xs => x ++ ',' :: joinComma xs

/-- Embedding of the `Tags` branch of `TorrentInfo.UnmarshalJSON`: an
empty raw string yields the empty collection (the Go code assigns a
fresh empty slice), otherwise the string is split on commas. -/
def parseTags (raw : List Char) : List (List Char) :=
  if raw = [] then [] else splitComma raw

/-- Go's `time.Time` restricted to what the client produces: wall-clock
seconds since January 1 of year 1 (the zero value has internal second
count 0; `time.Unix` shifts by `unixToInternal`).  Sub-second parts are
always zero here because the client only calls `time.Unix(v, 0)`. -/
structure GoTime where
  sec : Int
  deriving Repr, DecidableEq

/-- The zero `time.Time` (what `IsZero` recognises): not the Unix
epoch. -/
def goTimeZero : GoTime := ⟨0⟩

/-- Seconds between year 1 and the Unix epoch (Go's
`unixToInternal`). -/
def unixToInternal : Int := 62135596800

/-- Go's `time.Unix(v, 0)`. -/
def timeUnix (v : Int) : GoTime := ⟨v + unixToInternal⟩

/-- Embedding of `unixTimeOrZero`: the sentinel `-1` maps to the zero
time, every other integer to the corresponding Unix instant. -/
def unixTimeOrZero (value : Int) : GoTime :=
  if value = -1 then goTimeZero else timeUnix value

/-- The four raw timestamp integers read by
`TorrentsProperties.UnmarshalJSON` through its auxiliary struct. -/
structure PropsTimesAux where
  additionDate : Int
  completionDate : Int
  creationDate : Int
  lastSeen : Int
  deriving Repr, DecidableEq

/-- The four decoded timestamp fields of `TorrentsProperties`. -/
structure PropsTimes where
  additionDate : GoTime
  completionDate : GoTime
  creationDate : GoTime
  lastSeen : GoTime
  deriving Repr, DecidableEq

/-- Embedding of the timestamp assignments in
`TorrentsProperties.UnmarshalJSON`: every timestamp field goes through
`unixTimeOrZero`. -/
def decodePropsTimes (aux : PropsTimesAux) : PropsTimes :=
  { additionDate := unixTimeOrZero aux.additionDate
    completionDate := unixTimeOrZero aux.completionDate
    creationDate := unixTimeOrZero aux.creationDate
    lastSeen := unixTimeOrZero aux.lastSeen }

/-- One part of the multipart form built for the add-torrent call:
either a file part (`CreateFormFile`) or a scalar field
(`WriteField`). -/
inductive FormEntry where
  | filePart (fieldname filename : String) (content : List Char)
  | field (fname value : String)
  deriving Repr, DecidableEq

/-- Embedding of `TorrentsAddParams` (the parameter struct).  The Go
`float64` ratio limit is modelled as a rational. -/
structure TorrentsAddParams where
  torrents : List (List Char)
  urls : List String
  savePath : String
  cookie : String
  category : String
  tags : String
  skipCheck : Bool
  paused : Bool
  rootFolder : Option Bool
  rename : String
  upLimit : Int
  dlLimit : Int
  ratioLimit : Rat
  seedingTime : Int
  autoTMM : Bool
  sequential : Bool
  firstLast : Bool
  deriving Repr, DecidableEq

/-- Go's boolean formatting with verb `%t`. -/
def goBoolStr (b : Bool) : String := if b then "true" else "false"

/-- Go's `strconv.Itoa`. -/
def goItoa (n : Int) : String := toString n

/-- Render two decimal digits with a leading zero, for the fractional
part of a fixed two-decimals float rendering. -/
def twoDigits (n : Nat) : String :=
  (if n < 10 then "0" else "") ++ toString n

/-- Model of Go's `fmt.Sprintf` with verb `%.2f`: round to hundredths
and render with exactly two fractional digits.  This agrees with the
Go rendering on every value exactly representable in hundredths (such
as the ratio limits at issue); ties of the binary `float64` expansion
are immaterial here. -/
def goFmtF2 (q : Rat) : String :=
  let c : Int := round (q * 100)
  let a : Nat := c.natAbs
  (if c < 0 then "-" else "") ++ toString (a / 100) ++ "." ++ twoDigits (a % 100)

/-- The file parts written by the loop over `params.Torrents`
(`CreateFormFile` with the synthesised `torrent%d.torrent` names). -/
def filesSeg (torrents : List (List Char)) : List FormEntry :=
  torrents.enum.map fun p => FormEntry.filePart "torrents"
    ("torrent" ++ toString p.1 ++ ".torrent") p.2

/-- The `urls` fields written by the loop over `params.URLs`. -/
def urlsSeg (urls : List String) : List FormEntry :=
  urls.map fun u => FormEntry.field "urls" u

/-- A conditionally written scalar field (`WriteField` guarded by an
`if`). -/
def optField (c : Prop) [Decidable c] (n v : String) : List FormEntry :=
  if c then [FormEntry.field n v] else []

/-- The `root_folder` field, written only when the pointer is
non-nil. -/
def rootFolderSeg (rf : Option Bool) : List FormEntry :=
  match rf with
  | none => []
  | some b => [FormEntry.field "root_folder" (goBoolStr b)]

/-- Embedding of `buildTorrentAddForm` (equivalently of the inline form
construction in the plain `TorrentsAddParams` method): the sequence of
parts written to the multipart writer, in source order, with the source
conditions and formatting. -/
def buildTorrentAddForm (p : TorrentsAddParams) : List FormEntry :=
  filesSeg p.torrents ++
  (urlsSeg p.urls ++
  (optField (p.savePath ≠ "") "savepath" p.savePath ++
  (optField (p.cookie ≠ "") "cookie" p.cookie ++
  (optField (p.category ≠ "") "category" p.category ++
  (optField (p.tags ≠ "") "tags" p.tags ++
  (optField (p.skipCheck = true) "skip_checking" "true" ++
  (optField (p.paused = true) "paused" "true" ++
  (rootFolderSeg p.rootFolder ++
  (optField (p.rename ≠ "") "rename" p.rename ++
  (optField (0 < p.upLimit) "upLimit" (goItoa p.upLimit) ++
  (optField (0 < p.dlLimit) "dlLimit" (goItoa p.dlLimit) ++
  (optField (0 < p.ratioLimit) "ratioLimit" (goFmtF2 p.ratioLimit) ++
  (optField (0 < p.seedingTime) "seedingTimeLimit" (goItoa p.seedingTime) ++
  (optField (p.autoTMM = true) "autoTMM" "true" ++
  (optField (p.sequential = true) "sequentialDownload" "true" ++
  optField (p.firstLast = true) "firstLastPiecePrio" "true")))))))))))))))

/-- The value of the first scalar field named `n` in a list of form
entries (file parts are skipped; this is how `req.FormValue` reads the
transmitted form). -/
def lookupField : List FormEntry → String → Option String
  | [], _ => none
  | FormEntry.filePart _ _ _ :: rest, n => lookupField rest n
  | FormEntry.field m v :: rest, n =>
    if m = n then some v else lookupField rest n

lemma splitComma_ne_nil (s : List Char) : splitComma s ≠ [] := by
  induction s with
  | nil => simp [splitComma]
  | cons c rest ih =>
    simp only [splitComma]
    cases h : splitComma rest with
    | nil => simp
    | cons t ts =>
      by_cases hc : c = ','
      · simp [hc]
      · simp [hc]

lemma splitComma_no_comma (x : List Char) (hx : ',' ∉ x) : splitComma x = [x] := by
  induction x with
  | nil => simp [splitComma]
  | cons c rest ih =>
    have hc : ¬ c = ',' := by
      intro h
      exact hx (h ▸ List.mem_cons_self c rest)
    have hrest : ',' ∉ rest := fun h => hx (List.mem_cons_of_mem c h)
    simp only [splitComma, ih hrest]
    simp [hc]

lemma splitComma_append_comma (x t : List Char) (hx : ',' ∉ x) :
    splitComma (x ++ ',' :: t) = x :: splitComma t := by
  induction x with
  | nil =>
    simp only [List.nil_append, splitComma]
    cases h : splitComma t with
    | nil => exact absurd h (splitComma_ne_nil t)
    | cons u us => simp
  | cons c rest ih =>
    have hc : ¬ c = ',' := by
      intro h
      exact hx (h ▸ List.mem_cons_self c rest)
    have hrest : ',' ∉ rest := fun h => hx (List.mem_cons_of_mem c h)
    simp only [List.cons_append, splitComma, List.append_eq]
    rw [ih hrest]
    simp [hc]

lemma splitComma_joinComma (xs : List (List Char)) (hne : xs ≠ [])
    (hx : ∀ x ∈ xs, ',' ∉ x) : splitComma (joinComma xs) = xs := by
  induction xs with
  | nil => exact absurd rfl hne
  | cons x rest ih =>
    cases rest with
    | nil =>
      simp only [joinComma]
      exact splitComma_no_comma x (hx x (List.mem_cons_self x []))
    | cons y rest2 =>
      have hjoin : joinComma (x :: y :: rest2) = x ++ ',' :: joinComma (y :: rest2) := rfl
      rw [hjoin, splitComma_append_comma x _ (hx x (List.mem_cons_self x _))]
      have : splitComma (joinComma (y :: rest2)) = y :: rest2 :=
        ih (by simp) (fun z hz => hx z (List.mem_cons_of_mem x hz))
      rw [this]

lemma lookupField_filesSeg_append (l : List (Nat × List Char)) (rest : List FormEntry)
    (n : String) :
    lookupField ((l.map fun p => FormEntry.filePart "torrents"
      ("torrent" ++ toString p.1 ++ ".torrent") p.2) ++ rest) n = lookupField rest n := by
  induction l with
  | nil => rfl
  | cons p l ih => simpa [lookupField] using ih

lemma lookupField_filesSeg (ts : List (List Char)) (rest : List FormEntry) (n : String) :
    lookupField (filesSeg ts ++ rest) n = lookupField rest n := by
  unfold filesSeg
  exact lookupField_filesSeg_append _ _ _

lemma lookupField_urlsSeg_append (us : List String) (rest : List FormEntry) (n : String)
    (hn : n ≠ "urls") :
    lookupField (urlsSeg us ++ rest) n = lookupField rest n := by
  induction us with
  | nil => rfl
  | cons u us ih =>
    have : ¬ ("urls" : String) = n := fun h => hn h.symm
    simpa [urlsSeg, lookupField, this] using ih

lemma lookupField_optField_append (c : Prop) [Decidable c] (m v n : String)
    (rest : List FormEntry) :
    lookupField (optField c m v ++ rest) n =
      if m = n ∧ c then some v else lookupField rest n := by
  by_cases hc : c
  · by_cases hm : m = n
    · simp [optField, lookupField, hc, hm]
    · simp [optField, lookupField, hc, hm]
  · simp [optField, lookupField, hc]

lemma lookupField_optField (c : Prop) [Decidable c] (m v n : String) :
    lookupField (optField c m v) n = if m = n ∧ c then some v else none := by
  have h := lookupField_optField_append c m v n []
  simpa [lookupField] using h

lemma lookupField_rootFolderSeg_append (rf : Option Bool) (rest : List FormEntry)
    (n : String) :
    lookupField (rootFolderSeg rf ++ rest) n =
      if ("root_folder" : String) = n then
        match rf with
        | none => lookupField rest n
        | some b => some (goBoolStr b)
      else lookupField rest n := by
  cases rf with
  | none => simp [rootFolderSeg]
  | some b =>
    by_cases hn : ("root_folder" : String) = n
    · simp [rootFolderSeg, lookupField, hn]
    · simp [rootFolderSeg, lookupField, hn]

/-- Number of requests in a trace that hit a given endpoint. -/
def countEndpoint (tr : Trace) (e : String) : Nat :=
  (tr.filter fun r => r.endpoint == e).length

/-- The GET request built by `TorrentsPropertiesCtx` for a hash. -/
def propsReq (hash : String) : GoRequest :=
  { method := "GET", endpoint := "/api/v2/torrents/properties", contentType := ""
    query := [("hash", hash)], body := none }

/-- The GET request built by `TorrentsInfoCtx` with no optional
parameters. -/
def infoReq : GoRequest :=
  { method := "GET", endpoint := "/api/v2/torrents/info", contentType := ""
    query := [], body := none }

lemma doRequestRec_retry (env : NetEnv) (creds : String) (req : GoRequest) (n : Nat)
    (h1 : (env.respond [] req).status = 403)
    (h2 : (env.respond [req] (loginReq creds)).status = 200) :
    doRequestRec env creds (n + 2) false req [] =
      (some (Except.ok (env.respond [req, loginReq creds] req)),
       [req, loginReq creds, req]) := by
  simp [doRequestRec, clientDo, h1, h2]

/-- Claim C3: decoding the comma-joined tags string of a `TorrentInfo`
payload yields, for the empty string, the empty ordered collection (of
size 0, not a one-element collection containing the empty string), and
for a non-empty comma-separated list of N tags exactly those N entries
in their original order. -/
theorem tags_decode_empty_and_roundtrip :
    parseTags [] = [] ∧
    ∀ xs : List (List Char), (∀ x ∈ xs, ',' ∉ x) → joinComma xs ≠ [] →
      parseTags (joinComma xs) = xs := by
  refine ⟨rfl, ?_⟩
  intro xs hx hne
  have hxs : xs ≠ [] := by
    intro h
    subst h
    exact hne rfl
  unfold parseTags
  rw [if_neg hne]
  exact splitComma_joinComma xs hxs hx

/-- Witness for C3 at the concrete tag string `a,b`. -/
theorem tags_decode_witness :
    parseTags ['a', ',', 'b'] = [['a'], ['b']] := by
  have h := tags_decode_empty_and_roundtrip.2 [['a'], ['b']] (by decide) (by decide)
  simpa [joinComma] using h

/-- Claim C4: each timestamp field of `TorrentsProperties` decodes the
sentinel -1 to the zero time value (which is not the Unix epoch), and
any other integer to the Unix instant at exactly that many seconds;
distinct second counts yield distinct instants (no precision loss at
seconds granularity). -/
theorem timestamps_decode_sentinel_and_unix :
    (∀ aux : PropsTimesAux,
      (aux.additionDate = -1 → (decodePropsTimes aux).additionDate = goTimeZero) ∧
      (aux.additionDate ≠ -1 →
        (decodePropsTimes aux).additionDate = timeUnix aux.additionDate) ∧
      (aux.completionDate = -1 → (decodePropsTimes aux).completionDate = goTimeZero) ∧
      (aux.completionDate ≠ -1 →
        (decodePropsTimes aux).completionDate = timeUnix aux.completionDate) ∧
      (aux.creationDate = -1 → (decodePropsTimes aux).creationDate = goTimeZero) ∧
      (aux.creationDate ≠ -1 →
        (decodePropsTimes aux).creationDate = timeUnix aux.creationDate) ∧
      (aux.lastSeen = -1 → (decodePropsTimes aux).lastSeen = goTimeZero) ∧
      (aux.lastSeen ≠ -1 → (decodePropsTimes aux).lastSeen = timeUnix aux.lastSeen)) ∧
    goTimeZero ≠ timeUnix 0 ∧
    (∀ v w : Int, timeUnix v = timeUnix w → v = w) := by
  refine ⟨?_, by decide, ?_⟩
  · intro aux
    refine ⟨fun h => ?_, fun h => ?_, fun h => ?_, fun h => ?_,
        fun h => ?_, fun h => ?_, fun h => ?_, fun h => ?_⟩ <;>
      simp [decodePropsTimes, unixTimeOrZero, h]
  · intro v w h
    have := congrArg GoTime.sec h
    simpa [timeUnix] using this

/-- Witness for C4: the sentinel and a real timestamp decoded from one
concrete payload. -/
theorem timestamps_decode_witness :
    (decodePropsTimes ⟨-1, 1700000000, 5, 0⟩).additionDate = goTimeZero ∧
    (decodePropsTimes ⟨-1, 1700000000, 5, 0⟩).completionDate = timeUnix 1700000000 := by
  have h := timestamps_decode_sentinel_and_unix.1 ⟨-1, 1700000000, 5, 0⟩
  exact ⟨h.1 rfl, h.2.2.2.1 (by decide)⟩

/-- Claim C2 as stated is false: a field explicitly set to a non-zero
value can still be omitted.  With `UpLimit = -1` (set: distinct from
the zero sentinel) the built form contains no `upLimit` field, because
the source guards the write with `params.UpLimit > 0` rather than
`!= 0`. -/
theorem addform_negative_limit_omitted :
    (⟨[], [], "", "", "", "", false, false, none, "",
      -1, 0, 0, 0, false, false, false⟩ : TorrentsAddParams).upLimit ≠ 0 ∧
    lookupField (buildTorrentAddForm
      ⟨[], [], "", "", "", "", false, false, none, "",
        -1, 0, 0, 0, false, false, false⟩) "upLimit" = none := by
  refine ⟨by decide, ?_⟩
  rfl

/-- Claim C2, amended: every scalar field of the add-torrent multipart
form is present exactly under the source's condition — string fields
when non-empty, boolean fields when true, the root-folder field when
the pointer is non-nil, and the numeric limit fields when strictly
positive (so zero/unset values are always omitted, and negative values
are omitted too) — and a present field carries the documented
formatting: plain decimal for the integer limits and exactly two
decimal places for the ratio limit (2.5 renders as "2.50"). -/
theorem addform_field_presence (p : TorrentsAddParams) :
    lookupField (buildTorrentAddForm p) "savepath" =
      (if p.savePath ≠ "" then some p.savePath else none) ∧
    lookupField (buildTorrentAddForm p) "cookie" =
      (if p.cookie ≠ "" then some p.cookie else none) ∧
    lookupField (buildTorrentAddForm p) "category" =
      (if p.category ≠ "" then some p.category else none) ∧
    lookupField (buildTorrentAddForm p) "tags" =
      (if p.tags ≠ "" then some p.tags else none) ∧
    lookupField (buildTorrentAddForm p) "skip_checking" =
      (if p.skipCheck = true then some "true" else none) ∧
    lookupField (buildTorrentAddForm p) "paused" =
      (if p.paused = true then some "true" else none) ∧
    lookupField (buildTorrentAddForm p) "root_folder" = p.rootFolder.map goBoolStr ∧
    lookupField (buildTorrentAddForm p) "rename" =
      (if p.rename ≠ "" then some p.rename else none) ∧
    lookupField (buildTorrentAddForm p) "upLimit" =
      (if 0 < p.upLimit then some (goItoa p.upLimit) else none) ∧
    lookupField (buildTorrentAddForm p) "dlLimit" =
      (if 0 < p.dlLimit then some (goItoa p.dlLimit) else none) ∧
    lookupField (buildTorrentAddForm p) "ratioLimit" =
      (if 0 < p.ratioLimit then some (goFmtF2 p.ratioLimit) else none) ∧
    lookupField (buildTorrentAddForm p) "seedingTimeLimit" =
      (if 0 < p.seedingTime then some (goItoa p.seedingTime) else none) ∧
    lookupField (buildTorrentAddForm p) "autoTMM" =
      (if p.autoTMM = true then some "true" else none) ∧
    lookupField (buildTorrentAddForm p) "sequentialDownload" =
      (if p.sequential = true then some "true" else none) ∧
    lookupField (buildTorrentAddForm p) "firstLastPiecePrio" =
      (if p.firstLast = true then some "true" else none) ∧
    goFmtF2 ((5 : Rat) / 2) = "2.50" := by
  have h250 : round ((5 : Rat) / 2 * 100) = 250 := by norm_num [round_eq]
  have hfmt : goFmtF2 ((5 : Rat) / 2) = "2.50" := by
    simp only [goFmtF2, h250]
    decide
  refine ⟨?_, ?_, ?_, ?_, ?_, ?_, ?_, ?_, ?_, ?_, ?_, ?_, ?_, ?_, ?_, hfmt⟩ <;>
  · simp only [buildTorrentAddForm]
    rw [lookupField_filesSeg, lookupField_urlsSeg_append _ _ _ (by decide),
      lookupField_optField_append, lookupField_optField_append,
      lookupField_optField_append, lookupField_optField_append,
      lookupField_optField_append, lookupField_optField_append,
      lookupField_rootFolderSeg_append, lookupField_optField_append,
      lookupField_optField_append, lookupField_optField_append,
      lookupField_optField_append, lookupField_optField_append,
      lookupField_optField_append, lookupField_optField_append,
      lookupField_optField]
    cases hrf : p.rootFolder <;> simp [hrf]

/-- Claim C1 is false as stated: when the original request is itself
the login request and the server keeps answering 403, the pipeline
recurses through re-authentication without bound.  With every response
403 and fuel 5, five requests have already been issued to the original
endpoint (the login endpoint) — a third request is issued — and the
call has still not returned (`none`: the Go original is still
recursing). -/
theorem retry_login_forbidden_unbounded :
    countEndpoint
      (doRequestRec ⟨fun _ _ => ⟨403, "Forbidden", []⟩⟩ "u=a" 5 false (loginReq "u=a") []).2
      "/api/v2/auth/login" = 5 ∧
    2 < countEndpoint
      (doRequestRec ⟨fun _ _ => ⟨403, "Forbidden", []⟩⟩ "u=a" 5 false (loginReq "u=a") []).2
      "/api/v2/auth/login" ∧
    (doRequestRec ⟨fun _ _ => ⟨403, "Forbidden", []⟩⟩ "u=a" 5 false (loginReq "u=a") []).1 =
      none := by
  refine ⟨by decide, by decide, rfl⟩

/-- Claim C1, amended: for every request to an endpoint other than the
login endpoint whose first response has status 403 and whose
re-authentication login returns 200, the pipeline performs exactly one
re-authentication (one login request) and exactly one resubmission of
the identical request, and returns the second response as-is (even if
it is also forbidden); exactly two requests are issued to the original
endpoint.  (When re-authentication fails the error is returned with no
resubmission, and requests to the login endpoint itself are not
bounded — see the counterexample.) -/
theorem retry_forbidden_once_two_requests (env : NetEnv) (creds : String)
    (req : GoRequest) (n : Nat)
    (hE : req.endpoint ≠ "/api/v2/auth/login")
    (h1 : (env.respond [] req).status = 403)
    (h2 : (env.respond [req] (loginReq creds)).status = 200) :
    doRequestRec env creds (n + 2) false req [] =
      (some (Except.ok (env.respond [req, loginReq creds] req)),
       [req, loginReq creds, req]) ∧
    countEndpoint [req, loginReq creds, req] req.endpoint = 2 ∧
    countEndpoint [req, loginReq creds, req] "/api/v2/auth/login" = 1 := by
  have hE2 : (("/api/v2/auth/login" : String) == req.endpoint) = false := by
    simp [beq_iff_eq]
    intro h
    exact hE h.symm
  have hE3 : (req.endpoint == ("/api/v2/auth/login" : String)) = false := by
    simp [beq_iff_eq, hE]
  refine ⟨doRequestRec_retry env creds req n h1 h2, ?_, ?_⟩
  · simp [countEndpoint, loginReq, hE2]
  · simp [countEndpoint, loginReq, hE3]

/-- Witness for C1 at a concrete environment whose first answer is 403,
whose login answer is 200, and whose second answer is again 403: the
second 403 is returned as-is after exactly the three requests
original/login/original. -/
theorem retry_forbidden_witness :
    doRequestRec
      ⟨fun tr _ => if tr.length = 1 then ⟨200, "Ok.", [("SID", "sid1")]⟩
                   else ⟨403, "Forbidden", []⟩⟩
      "u=a" 5 false ⟨"GET", "/api/v2/torrents/info", "", [], none⟩ [] =
      (some (Except.ok ⟨403, "Forbidden", []⟩),
       [⟨"GET", "/api/v2/torrents/info", "", [], none⟩, loginReq "u=a",
        ⟨"GET", "/api/v2/torrents/info", "", [], none⟩]) := by
  have h := retry_forbidden_once_two_requests
    ⟨fun tr _ => if tr.length = 1 then ⟨200, "Ok.", [("SID", "sid1")]⟩
                 else ⟨403, "Forbidden", []⟩⟩
    "u=a" ⟨"GET", "/api/v2/torrents/info", "", [], none⟩ 3 (by decide) rfl rfl
  exact h.1

/-- Claim C9: the request body source is drained into memory exactly
once, before the first attempt, and when the 403 policy resubmits the
request both attempts carry exactly the original body bytes. -/
theorem body_buffered_once_retry_identical (env : NetEnv)
    (creds method endpoint contentType : String) (query : List (String × String))
    (s : Stream) (n : Nat)
    (hE : endpoint ≠ "/api/v2/auth/login")
    (h1 : (env.respond [] ⟨method, endpoint, contentType, query, some s.data⟩).status = 403)
    (h2 : (env.respond [⟨method, endpoint, contentType, query, some s.data⟩]
      (loginReq creds)).status = 200) :
    doRequestCtx env creds (n + 2) false method endpoint contentType query (some s) =
      ((some (Except.ok (env.respond
          [⟨method, endpoint, contentType, query, some s.data⟩, loginReq creds]
          ⟨method, endpoint, contentType, query, some s.data⟩)),
        [⟨method, endpoint, contentType, query, some s.data⟩, loginReq creds,
         ⟨method, endpoint, contentType, query, some s.data⟩]), 1) ∧
    ∀ r ∈ (doRequestCtx env creds (n + 2) false method endpoint contentType query
        (some s)).1.2,
      r.endpoint = endpoint → r.body = some s.data := by
  have hmain := doRequestRec_retry env creds
    ⟨method, endpoint, contentType, query, some s.data⟩ n h1 h2
  have hwrap : doRequestCtx env creds (n + 2) false method endpoint contentType query
      (some s) =
      ((some (Except.ok (env.respond
          [⟨method, endpoint, contentType, query, some s.data⟩, loginReq creds]
          ⟨method, endpoint, contentType, query, some s.data⟩)),
        [⟨method, endpoint, contentType, query, some s.data⟩, loginReq creds,
         ⟨method, endpoint, contentType, query, some s.data⟩]), 1) := by
    simp only [doRequestCtx]
    rw [hmain]
  refine ⟨hwrap, ?_⟩
  rw [hwrap]
  intro r hr hend
  simp only [List.mem_cons, List.mem_singleton] at hr
  rcases hr with rfl | rfl | rfl | h
  · rfl
  · exact absurd hend.symm hE
  · rfl
  · exact absurd h (List.not_mem_nil r)

/-- Witness for C9: with a concrete body stream, one drain and two
identical bodies on the wire. -/
theorem body_buffered_witness :
    doRequestCtx
      ⟨fun tr _ => if tr.length = 1 then ⟨200, "Ok.", []⟩ else ⟨403, "Forbidden", []⟩⟩
      "u=a" 6 false "POST" "/api/v2/torrents/add" "multipart/form-data" [] (some ⟨"BODY"⟩) =
      ((some (Except.ok ⟨403, "Forbidden", []⟩),
        [⟨"POST", "/api/v2/torrents/add", "multipart/form-data", [], some "BODY"⟩,
         loginReq "u=a",
         ⟨"POST", "/api/v2/torrents/add", "multipart/form-data", [], some "BODY"⟩]), 1) := by
  have h := body_buffered_once_retry_identical
    ⟨fun tr _ => if tr.length = 1 then ⟨200, "Ok.", []⟩ else ⟨403, "Forbidden", []⟩⟩
    "u=a" "POST" "/api/v2/torrents/add" "multipart/form-data" [] ⟨"BODY"⟩ 4 (by decide) rfl rfl
  exact h.1

/-- Claim C5: a successful (200) HTTP response with an empty body makes
the method fail, never succeed with a default value.
`TorrentsPropertiesCtx` rejects the empty body explicitly before any
decoding; `TorrentsInfoCtx` fails because `json.Unmarshal` rejects
empty input (the decoder is abstract here, constrained only to fail on
the empty string as the Go JSON decoder does). -/
theorem empty_body_hard_error :
    (∀ (α : Type) (decode : String → Except String α) (env : NetEnv)
        (creds hash : String) (n : Nat),
      (env.respond [] (propsReq hash)).status = 200 →
      (env.respond [] (propsReq hash)).body = "" →
      torrentsPropertiesCtxM decode env creds (n + 1) false hash =
        (some (Except.error (GoError.emptyResponse "TorrentsProperties")),
         [propsReq hash])) ∧
    (∀ (α : Type) (decode : String → Except String α) (msg : String) (env : NetEnv)
        (creds : String) (n : Nat),
      decode "" = Except.error msg →
      (env.respond [] infoReq).status = 200 →
      (env.respond [] infoReq).body = "" →
      torrentsInfoCtxM decode env creds (n + 1) false =
        (some (Except.error (GoError.decodeFailed "response" msg)), [infoReq])) := by
  constructor
  · intro α decode env creds hash n hst hb
    simp [torrentsPropertiesCtxM, doGetCtxM, doRequestCtx, doRequestRec, clientDo,
      propsReq, hst, hb] at *
  · intro α decode msg env creds n hdec hst hb
    simp [torrentsInfoCtxM, doGetCtxM, doRequestCtx, doRequestRec, clientDo,
      infoReq, hst, hb, hdec] at *

/-- Witness for C5: one concrete environment answering 200 with an
empty body, for both endpoints. -/
theorem empty_body_witness :
    torrentsPropertiesCtxM (fun _ => Except.ok (0 : Nat))
        ⟨fun _ _ => ⟨200, "", []⟩⟩ "u=a" 3 false "abc" =
      (some (Except.error (GoError.emptyResponse "TorrentsProperties")), [propsReq "abc"]) ∧
    torrentsInfoCtxM (fun s => if s = "" then Except.error "unexpected end of JSON input"
        else Except.ok (0 : Nat)) ⟨fun _ _ => ⟨200, "", []⟩⟩ "u=a" 3 false =
      (some (Except.error (GoError.decodeFailed "response" "unexpected end of JSON input")),
       [infoReq]) := by
  constructor
  · exact empty_body_hard_error.1 Nat (fun _ => Except.ok 0)
      ⟨fun _ _ => ⟨200, "", []⟩⟩ "u=a" "abc" 2 rfl rfl
  · exact empty_body_hard_error.2 Nat
      (fun s => if s = "" then Except.error "unexpected end of JSON input" else Except.ok 0)
      "unexpected end of JSON input" ⟨fun _ _ => ⟨200, "", []⟩⟩ "u=a" 2 (by simp) rfl rfl

/-- Claim C6 is false as stated: success is not conditioned on a
non-error response body.  The login endpoint of the remote API reports
bad credentials as HTTP 200 with body "Fails.", and `AuthLogin` treats
exactly that response as a successful login (and even persists a
returned SID cookie). -/
theorem authlogin_error_body_still_success :
    (authLoginUpdate (Except.ok ⟨200, "Fails.", [("SID", "sid-bad")]⟩) "old").1 =
      Except.ok () ∧
    (authLoginUpdate (Except.ok ⟨200, "Fails.", [("SID", "sid-bad")]⟩) "old").2 =
      "sid-bad" := by
  exact ⟨rfl, rfl⟩

/-- Claim C6, amended: `AuthLogin` succeeds exactly when the login
exchange returns HTTP 200 (the response body is not inspected); on
success the SID cookie exposed by the response, if any, is persisted
into session state; on a non-200 status it returns an authentication
error carrying the status code and the response body; on transport
failure it returns a wrapped error; and repeated invocation is safe
(the session state is idempotent under re-login against the same
response). -/
theorem authlogin_status_and_persistence (r : Except GoError HttpResponse) (sid : String) :
    (∀ e, r = Except.error e →
      authLoginUpdate r sid = (Except.error (GoError.wrap "AuthLogin" e), sid)) ∧
    (∀ resp, r = Except.ok resp →
      ((authLoginUpdate r sid).1 = Except.ok () ↔ resp.status = 200) ∧
      (resp.status ≠ 200 →
        authLoginUpdate r sid =
          (Except.error (GoError.authError resp.status resp.body), sid)) ∧
      (resp.status = 200 →
        (authLoginUpdate r sid).2 = (findSID resp.cookies).getD sid)) ∧
    (authLoginUpdate r (authLoginUpdate r sid).2).2 = (authLoginUpdate r sid).2 := by
  refine ⟨?_, ?_, ?_⟩
  · intro e he
    subst he
    rfl
  · intro resp hr
    subst hr
    by_cases h200 : resp.status = 200
    · cases hc : findSID resp.cookies with
      | none => simp [authLoginUpdate, h200, hc]
      | some v => simp [authLoginUpdate, h200, hc]
    · simp [authLoginUpdate, h200]
  · cases r with
    | error e => rfl
    | ok resp =>
      by_cases h200 : resp.status = 200
      · cases hc : findSID resp.cookies with
        | none => simp [authLoginUpdate, h200, hc]
        | some v => simp [authLoginUpdate, h200, hc]
      · simp [authLoginUpdate, h200]

/-- Witness for C6 at a successful login response carrying an SID
cookie: the call succeeds and the cookie value is persisted. -/
theorem authlogin_witness :
    (authLoginUpdate (Except.ok ⟨200, "Ok.", [("SID", "xyz")]⟩) "").1 = Except.ok () ∧
    (authLoginUpdate (Except.ok ⟨200, "Ok.", [("SID", "xyz")]⟩) "").2 = "xyz" := by
  have h := (authlogin_status_and_persistence
    (Except.ok ⟨200, "Ok.", [("SID", "xyz")]⟩) "").2.1 ⟨200, "Ok.", [("SID", "xyz")]⟩ rfl
  exact ⟨h.1.mpr rfl, by simpa using h.2.2 rfl⟩

/-- Claim C7: a context that is already cancelled (or has timed out)
when the request is issued makes the pipeline — and therefore every
endpoint method built on it — return an error, never a successful
result.  Cancellation that lands strictly mid-flight is a real-time
event; it is modelled here as the HTTP layer failing the `Do` call, per
the `net/http` contract for a cancelled request context. -/
theorem cancelled_context_errors :
    (∀ (env : NetEnv) (creds : String) (req : GoRequest) (tr : Trace) (n : Nat),
      doRequestRec env creds (n + 1) true req tr =
        (some (Except.error GoError.ctxCanceled), tr)) ∧
    (∀ (α : Type) (decode : String → Except String α) (env : NetEnv)
        (creds hash : String) (n : Nat),
      torrentsPropertiesCtxM decode env creds (n + 1) true hash =
        (some (Except.error (GoError.wrap "TorrentsProperties" GoError.ctxCanceled)),
         [])) := by
  constructor
  · intro env creds req tr n
    simp [doRequestRec, clientDo]
  · intro α decode env creds hash n
    simp [torrentsPropertiesCtxM, doGetCtxM, doRequestCtx, doRequestRec, clientDo]

/-- Claim C8: each deprecated convenience method is observationally
equal to its context-accepting form invoked with the non-cancellable
background context — same result and same network trace for all
arguments and all remote behaviours. -/
theorem deprecated_wrappers_delegate (env : NetEnv) (creds hash infohash : String)
    (fuel : Nat) :
    authLoginM env creds fuel = authLoginCtxM env creds fuel false ∧
    torrentsExportM env creds fuel hash = torrentsExportCtxM env creds fuel false hash ∧
    torrentsDeleteM env creds fuel infohash =
      torrentsDeleteCtxM env creds fuel false infohash :=
  ⟨rfl, rfl, rfl⟩

/-- Claim C10: the delete form always carries `deleteFiles=true` next
to the hash — both in the `url.Values` the method builds and in the
encoded body it posts — and the deprecated wrapper delegates to the
same implementation, so no call surface of this client deletes a
torrent while keeping its files. -/
theorem delete_always_deletes_files (h : String) (env : NetEnv) (creds : String)
    (fuel : Nat) :
    (torrentsDeleteValues h).lookup "deleteFiles" = some "true" ∧
    (torrentsDeleteValues h).lookup "hashes" = some h ∧
    goValuesEncode (torrentsDeleteValues h) = "deleteFiles=true&hashes=" ++ goQueryEscape h ∧
    torrentsDeleteM env creds fuel h = torrentsDeleteCtxM env creds fuel false h := by
  refine ⟨?_, ?_, ?_, rfl⟩
  · rfl
  · rfl
  · rfl

end QbtClient
